import Mathlib

/-!
Verification of the Manpower Management System's document-compliance logic.

Dates are modelled as whole days (integers, days since an epoch): every date
comparison in the source is at day granularity (SQL `date` arithmetic,
`differenceInDays` in the frontend).  Money (fine rates and caps, SQL
`DECIMAL(10,2)`) is modelled as rationals.

Code-embedded definitions translate the Go handlers
(`src/backend/internal/handlers/document.go`, `employee.go`, the dashboard
handler) and the TypeScript helpers (`getDaysUntil`, `getExpiryStatus`), plus
the SQL constraints of migrations 004 and 007.  The grace-period / fine
engine itself is not present in the repository snapshot (only its
`compliance_rules` table and seed data are); definitions for it are marked
`Modelled from the spec:` below.
-/

namespace MMS

/-- A row of the `documents` table, as read and written by the Go handlers
(`models.Document`): nullable `expiry_date`, an `is_primary` flag (migration
004), and the file fields. -/
structure Document where
  id : Nat
  employeeId : Nat
  documentType : String
  expiryDate : Option Int
  isPrimary : Bool
  fileUrl : String
  fileName : String
  fileSize : Int
  fileType : String
deriving DecidableEq, Repr

/-- The `doc_status` vocabulary of `EmployeeHandler.List` / `GetByID`
(employee.go): the SQL CASE yields 'none', 'expired', 'expiring' or 'valid'. -/
inductive DocStatus where
  | docNone
  | expired
  | expiring
  | valid
deriving DecidableEq, Repr

/-- The SQL CASE of employee.go (List and GetByID):
`WHEN pd.expiry_date IS NULL THEN 'none'`,
`WHEN pd.expiry_date < CURRENT_DATE THEN 'expired'`,
`WHEN pd.expiry_date <= CURRENT_DATE + INTERVAL '30 days' THEN 'expiring'`,
`ELSE 'valid'`.  `today` stands for `CURRENT_DATE`, the database's clock. -/
def docStatusOfExpiry : Option Int → Int → DocStatus
  | none, _ => .docNone
  | some e, today =>
    if e < today then .expired
    else if e ≤ today + 30 then .expiring
    else .valid

/-- The `LEFT JOIN documents pd ON pd.employee_id = e.id AND pd.is_primary =
TRUE` of employee.go: the employee's primary document row, if any. -/
def findPrimary (docs : List Document) : Option Document :=
  docs.find? (fun d => d.isPrimary)

/-- The per-employee `doc_status` column of employee.go: the CASE applied to
the primary document's expiry date (all `pd` columns are NULL when the LEFT
JOIN finds no primary row). -/
def employeeDocStatus (docs : List Document) (today : Int) : DocStatus :=
  docStatusOfExpiry ((findPrimary docs).bind Document.expiryDate) today

/-- The status vocabulary of `getExpiryStatus` (frontend lib): 'expired',
'urgent', 'warning' or 'valid'. -/
inductive ExpiryStatus where
  | expired
  | urgent
  | warning
  | valid
deriving DecidableEq, Repr

/-- `getDaysUntil(date)` returns `differenceInDays(new Date(date), new
Date())`.  The implicit wall-clock read `new Date()` is made an explicit
argument `now`; the source function itself takes only `date`. -/
def getDaysUntil (date now : Int) : Int := date - now

/-- `getExpiryStatus(expiryDate)` from the frontend lib: thresholds on
`getDaysUntil(expiryDate)`.  As with `getDaysUntil`, the wall clock the
source reads implicitly is the explicit argument `now`. -/
def getExpiryStatus (expiryDate now : Int) : ExpiryStatus :=
  let daysLeft := getDaysUntil expiryDate now
  if daysLeft < 0 then .expired
  else if daysLeft ≤ 7 then .urgent
  else if daysLeft ≤ 30 then .warning
  else .valid

/-- Errors of `DocumentHandler.TogglePrimary` (document.go). -/
inductive ToggleError where
  | notFound
  | noExpiryDate
deriving DecidableEq, Repr

/-- The HTTP status and message document.go sends for each TogglePrimary
error. -/
def toggleHttpResponse : ToggleError → Nat × String
  | .notFound => (404, "Document not found")
  | .noExpiryDate => (400, "Cannot set as primary: document has no expiry date")

/-- `UPDATE documents SET is_primary = FALSE WHERE employee_id = $1 AND
is_primary = TRUE` (document.go, TogglePrimary and Renew). -/
def clearPrimaryFor (empId : Nat) (docs : List Document) : List Document :=
  docs.map fun d =>
    if d.employeeId = empId ∧ d.isPrimary then { d with isPrimary := false } else d

/-- `UPDATE documents SET is_primary = TRUE WHERE id = $1` (document.go). -/
def setPrimaryById (id : Nat) (docs : List Document) : List Document :=
  docs.map fun d => if d.id = id then { d with isPrimary := true } else d

/-- `UPDATE documents SET is_primary = FALSE WHERE id = $1` (document.go). -/
def unsetPrimaryById (id : Nat) (docs : List Document) : List Document :=
  docs.map fun d => if d.id = id then { d with isPrimary := false } else d

/-- `DocumentHandler.TogglePrimary` (document.go): fetch the document; 404 if
absent; 400 if it has no expiry date; if currently primary, unset it;
otherwise unset any existing primary for the employee, then set this one.
The transaction commits only in the `.ok` cases, so an error leaves the
table untouched. -/
def togglePrimary (docs : List Document) (id : Nat) :
    Except ToggleError (List Document) :=
  match docs.find? (fun d => d.id = id) with
  | none => .error .notFound
  | some d =>
    if d.expiryDate.isNone then .error .noExpiryDate
    else if d.isPrimary then .ok (unsetPrimaryById id docs)
    else .ok (setPrimaryById id (clearPrimaryFor d.employeeId docs))

/-- The body of POST /api/documents/{id}/renew (document.go).  In Go the file
fields default to the old document's values when the request leaves them
empty (`""`, size `≤ 0`); an empty `expiryDate` string is modelled as
`none`. -/
structure RenewRequest where
  expiryDate : Option Int
  fileUrl : String
  fileName : String
  fileSize : Int
  fileType : String
deriving DecidableEq, Repr

/-- Errors of `DocumentHandler.Renew` (document.go). -/
inductive RenewError where
  | unprocessable
  | notFound
deriving DecidableEq, Repr

/-- `DocumentHandler.Renew` (document.go): 422 if the new expiry date is
missing; 404 if the original document is not found; otherwise, in one
transaction, unset the employee's current primary flag and insert a new
document row (fresh `newId`: the DB generates the primary key) with the same
employee and type, the new expiry date, `is_primary = TRUE`, and the old
file fields unless the request supplies new ones. -/
def renew (docs : List Document) (oldId : Nat) (req : RenewRequest)
    (newId : Nat) : Except RenewError (List Document) :=
  match req.expiryDate with
  | none => .error .unprocessable
  | some newExpiry =>
    match docs.find? (fun d => d.id = oldId) with
    | none => .error .notFound
    | some old =>
      let fileUrl := if req.fileUrl ≠ "" then req.fileUrl else old.fileUrl
      let fileName := if req.fileName ≠ "" then req.fileName else old.fileName
      let fileSize := if req.fileSize > 0 then req.fileSize else old.fileSize
      let fileType := if req.fileType ≠ "" then req.fileType else old.fileType
      .ok (clearPrimaryFor old.employeeId docs ++
        [{ id := newId, employeeId := old.employeeId,
           documentType := old.documentType, expiryDate := some newExpiry,
           isPrimary := true, fileUrl := fileUrl, fileName := fileName,
           fileSize := fileSize, fileType := fileType }])

/-- `DocumentHandler.Create` (document.go): `INSERT INTO documents (...)`
without the `is_primary` column, so the new row gets the column default
`FALSE` (migration 004). -/
def createDocument (docs : List Document) (d : Document) : List Document :=
  docs ++ [{ d with isPrimary := false }]

/-- The body of PUT /api/documents/{id} (document.go): each field is updated
only when present in the request.  `is_primary` is not among the settable
columns. -/
structure UpdateRequest where
  documentType : Option String
  expiryDate : Option Int
  fileUrl : Option String
  fileName : Option String
  fileSize : Option Int
  fileType : Option String
deriving DecidableEq, Repr

/-- The SET clause `DocumentHandler.Update` builds: provided fields
overwrite, absent ones are kept; `id`, `employee_id` and `is_primary` are
never touched. -/
def applyUpdate (req : UpdateRequest) (d : Document) : Document :=
  { d with
    documentType := req.documentType.getD d.documentType,
    expiryDate := match req.expiryDate with
      | some e => some e
      | none => d.expiryDate,
    fileUrl := req.fileUrl.getD d.fileUrl,
    fileName := req.fileName.getD d.fileName,
    fileSize := req.fileSize.getD d.fileSize,
    fileType := req.fileType.getD d.fileType }

/-- `DocumentHandler.Update`'s state change: update the row with the given
id. -/
def updateDocument (docs : List Document) (id : Nat) (req : UpdateRequest) :
    List Document :=
  docs.map fun d => if d.id = id then applyUpdate req d else d

/-- `DocumentHandler.Delete`: `DELETE FROM documents WHERE id = $1`. -/
def deleteDocument (docs : List Document) (id : Nat) : List Document :=
  docs.filter fun d => d.id ≠ id

/-- `gen_random_uuid()`: a freshly generated primary key collides with no
existing row. -/
def freshId (docs : List Document) (id : Nat) : Bool :=
  docs.all fun d => d.id ≠ id

/-- States of the `documents` table reachable through the document handlers
(document.go): Create, Update, Delete, TogglePrimary and Renew, starting
from the empty table.  Insertions carry the primary-key freshness the DB
guarantees. -/
inductive Reachable : List Document → Prop where
  | empty : Reachable []
  | create (docs : List Document) (d : Document) :
      Reachable docs → freshId docs d.id = true → Reachable (createDocument docs d)
  | update (docs : List Document) (id : Nat) (req : UpdateRequest) :
      Reachable docs → Reachable (updateDocument docs id req)
  | delete (docs : List Document) (id : Nat) :
      Reachable docs → Reachable (deleteDocument docs id)
  | toggle (docs docs' : List Document) (id : Nat) :
      Reachable docs → togglePrimary docs id = .ok docs' → Reachable docs'
  | renewal (docs docs' : List Document) (oldId newId : Nat) (req : RenewRequest) :
      Reachable docs → freshId docs newId = true →
      renew docs oldId req newId = .ok docs' → Reachable docs'

/-- How many documents of employee `empId` carry the primary flag. -/
def primaryCount (empId : Nat) (docs : List Document) : Nat :=
  docs.countP fun d => decide (d.employeeId = empId) && d.isPrimary

/-- The guarantee of the `idx_documents_primary_per_employee` index
(migration 004): at most one primary document per employee. -/
def atMostOnePrimary (docs : List Document) : Prop :=
  ∀ empId, primaryCount empId docs ≤ 1

/-- Primary keys are unique (the `documents` table's PRIMARY KEY). -/
def idsNodup (docs : List Document) : Prop :=
  (docs.map Document.id).Nodup

/-- The three dashboard counters of `DashboardHandler.GetMetrics`: a
document counts as active iff `is_primary = TRUE AND expiry_date IS NOT
NULL AND expiry_date > CURRENT_DATE + INTERVAL '30 days'`. -/
def countedActive (today : Int) (d : Document) : Bool :=
  d.isPrimary && match d.expiryDate with
    | some e => decide (e > today + 30)
    | none => false

/-- `expiry_date BETWEEN CURRENT_DATE AND CURRENT_DATE + INTERVAL '30 days'`
(the expiringSoon counter of GetMetrics). -/
def countedExpiringSoon (today : Int) (d : Document) : Bool :=
  d.isPrimary && match d.expiryDate with
    | some e => decide (today ≤ e) && decide (e ≤ today + 30)
    | none => false

/-- `expiry_date < CURRENT_DATE` (the expired counter of GetMetrics). -/
def countedExpired (today : Int) (d : Document) : Bool :=
  d.isPrimary && match d.expiryDate with
    | some e => decide (e < today)
    | none => false

/-- A row of the `compliance_rules` table (migration 007): nullable
`company_id` (NULL = global rule), `doc_type`, `grace_period_days`,
`fine_per_day`, `fine_type` ('daily' / 'monthly' / 'one_time'),
`fine_cap`. -/
structure ComplianceRuleRow where
  companyId : Option Nat
  docType : String
  gracePeriodDays : Int
  finePerDay : ℚ
  fineCap : ℚ
  fineType : String
deriving DecidableEq, Repr

/-- The seven global rules seeded by migration 007 (company_id NULL):
(doc_type, grace_period_days, fine_per_day, fine_type, fine_cap). -/
def seedComplianceRules : List ComplianceRuleRow :=
  [⟨none, "passport", 0, 0, 0, "daily"⟩,
   ⟨none, "visa", 0, 50, 0, "daily"⟩,
   ⟨none, "emirates_id", 30, 20, 1000, "daily"⟩,
   ⟨none, "work_permit", 50, 500, 500, "one_time"⟩,
   ⟨none, "health_insurance", 0, 500, 150000, "monthly"⟩,
   ⟨none, "iloe_insurance", 0, 400, 400, "one_time"⟩,
   ⟨none, "medical_fitness", 0, 0, 0, "daily"⟩]

/-- The (company, type) key of a rule row; the two SQL constraints of
migration 007 together say no two rows share this key. -/
def ruleKey (r : ComplianceRuleRow) : Option Nat × String :=
  (r.companyId, r.docType)

/-- The two uniqueness constraints of migration 007 as a conflict check
between two rows: the partial unique index `idx_compliance_rules_global_unique
ON compliance_rules(doc_type) WHERE company_id IS NULL` (both global, same
type), and `UNIQUE(company_id, doc_type)` (which in SQL bites only when both
company ids are non-null, since NULLs compare distinct). -/
def rulesConflict (r s : ComplianceRuleRow) : Bool :=
  (r.companyId.isNone && s.companyId.isNone && r.docType == s.docType) ||
  (match r.companyId, s.companyId with
   | some a, some b => a == b && r.docType == s.docType
   | _, _ => false)

/-- An INSERT into `compliance_rules`: the DB rejects it when it conflicts
with an existing row under either uniqueness constraint. -/
def insertRule (rules : List ComplianceRuleRow) (r : ComplianceRuleRow) :
    Option (List ComplianceRuleRow) :=
  if rules.any (fun s => rulesConflict r s) then none else some (r :: rules)

/-- States of the `compliance_rules` table reachable through
constraint-checked inserts and deletes (an UPDATE of the key columns is a
delete followed by an insert, both re-checked by the DB). -/
inductive RulesReachable : List ComplianceRuleRow → Prop where
  | empty : RulesReachable []
  | insert (rules rules' : List ComplianceRuleRow) (r : ComplianceRuleRow) :
      RulesReachable rules → insertRule rules r = some rules' →
      RulesReachable rules'
  | delete (rules : List ComplianceRuleRow) (p : ComplianceRuleRow → Bool) :
      RulesReachable rules → RulesReachable (rules.filter p)

/-- Modelled from the spec: the Lifecycle Evaluator (§4.2), absent from the
repository snapshot (only its `compliance_rules` inputs are present).
States in priority order, first match wins: Incomplete if any required
field (including the expiry date) is unset; else PenaltyActive if
`asOfDate > expiryDate + graceDays`; else InGrace if `asOfDate >
expiryDate`; else ExpiringSoon if `expiryDate - asOfDate ≤ 30`; else
Valid. -/
inductive LifecycleState where
  | incomplete
  | valid
  | expiringSoon
  | inGrace
  | penaltyActive
deriving DecidableEq, Repr

/-- Modelled from the spec: `Evaluate(document, effectiveRule, asOfDate)`
(§4.2).  `fieldsComplete` is the document's field-completeness, `expiry`
its (required) expiry date — unset means Incomplete regardless of the
rest. -/
def evaluateLifecycle (fieldsComplete : Bool) (expiry : Option Int)
    (graceDays asOf : Int) : LifecycleState :=
  match expiry with
  | none => .incomplete
  | some exp =>
    if fieldsComplete = false then .incomplete
    else if asOf > exp + graceDays then .penaltyActive
    else if asOf > exp then .inGrace
    else if exp - asOf ≤ 30 then .expiringSoon
    else .valid

/-- Modelled from the spec: the Fine Calculator `Accrue` (§4.3), absent from
the repository snapshot.  Zero unless PenaltyActive; daily accrual is
`fineRate * daysOverdueBeyondGrace` (days floored at zero), monthly is
`fineRate * ceil(days / 30)`, one-time is `fineRate`; the raw amount is
floored at zero and clamped to the cap when `fineCap > 0`, passed through
unclamped when `fineCap = 0`. -/
def accrueFine (state : LifecycleState) (rule : ComplianceRuleRow)
    (expiry asOf : Int) : ℚ :=
  if state = .penaltyActive then
    let days : ℕ := (asOf - (expiry + rule.gracePeriodDays)).toNat
    let raw : ℚ :=
      if rule.fineType = "daily" then rule.finePerDay * days
      else if rule.fineType = "monthly" then rule.finePerDay * ((days + 29) / 30 : ℕ)
      else rule.finePerDay
    let floored := max 0 raw
    if rule.fineCap > 0 then min floored rule.fineCap else floored
  else 0

/-- Modelled from the spec: `graceDaysRemaining = graceDays - (asOfDate -
expiryDate)` (§4.3), exposed during grace and reported as 0 once grace is
exhausted (the spec's PenaltyActive scenario expects 0). -/
def graceDaysRemaining (graceDays expiry asOf : Int) : Int :=
  max 0 (graceDays - (asOf - expiry))

/-- Modelled from the spec: the Aggregator's strict priority
`PenaltyActive > InGrace > ExpiringSoon > Incomplete > Valid` (§4.6). -/
def statePriority : LifecycleState → Nat
  | .penaltyActive => 4
  | .inGrace => 3
  | .expiringSoon => 2
  | .incomplete => 1
  | .valid => 0

/-- Modelled from the spec: the Aggregator (§4.6) combines the lifecycle
states of ALL of an employee's documents into one representative status,
the highest-priority state. -/
def specAggregateStatus (states : List LifecycleState) : LifecycleState :=
  states.foldl (fun acc s => if statePriority acc < statePriority s then s else acc)
    .valid

/-! ### Helper lemmas -/

theorem countP_map_eq {α : Type} (g : α → α) (p q : α → Bool) (l : List α)
    (h : ∀ x ∈ l, p (g x) = q x) : (l.map g).countP p = l.countP q := by
  induction l with
  | nil => rfl
  | cons a t ih =>
    simp only [List.map_cons, List.countP_cons, h a (by simp)]
    rw [ih (fun x hx => h x (by simp [hx]))]

theorem countP_map_le {α : Type} (g : α → α) (p q : α → Bool) (l : List α)
    (h : ∀ x ∈ l, p (g x) = true → q x = true) :
    (l.map g).countP p ≤ l.countP q := by
  induction l with
  | nil => simp
  | cons a t ih =>
    simp only [List.map_cons, List.countP_cons]
    have ht := ih (fun x hx => h x (List.mem_cons_of_mem a hx))
    by_cases hp : p (g a) = true
    · rw [if_pos hp, if_pos (h a (List.mem_cons_self a t) hp)]
      omega
    · rw [if_neg hp]
      split <;> omega

theorem countP_le_one_key {α β : Type} [DecidableEq β] (f : α → β) (k : β)
    (l : List α) (hnd : (l.map f).Nodup) (p : α → Bool)
    (hp : ∀ a ∈ l, p a = true → f a = k) : l.countP p ≤ 1 := by
  induction l with
  | nil => simp
  | cons a t ih =>
    simp only [List.map_cons, List.nodup_cons] at hnd
    rw [List.countP_cons]
    by_cases hpa : p a = true
    · have hfa := hp a (List.mem_cons_self a t) hpa
      have hz : t.countP p = 0 := by
        rw [List.countP_eq_zero]
        intro b hb hpb
        have hfb := hp b (List.mem_cons_of_mem a hb) hpb
        exact absurd (List.mem_map.mpr ⟨b, hb, hfb.trans hfa.symm⟩) hnd.1
      rw [hz, if_pos hpa]
    · rw [if_neg hpa]
      have ht := ih hnd.2 (fun b hb => hp b (List.mem_cons_of_mem a hb))
      omega

theorem map_of_id_preserved {α β : Type} (f : α → β) (g : α → α) (l : List α)
    (h : ∀ x, f (g x) = f x) : (l.map g).map f = l.map f := by
  rw [List.map_map]
  exact List.map_congr_left (fun a _ => h a)

/-! ### Claim theorems -/

/-- C1: for a document that carries an expiry date, lifecycle evaluation at
`asOf` follows the fixed first-match order — Incomplete if any required
field (the expiry date included) is unset; else PenaltyActive iff
`asOf > expiry + graceDays`; else InGrace iff `asOf > expiry`; else
ExpiringSoon iff `expiry - asOf ≤ 30`; else Valid.  The iff-characterisation
shows the evaluation lands in exactly one of the five states, and an expired
document still within its grace window is InGrace, not merely "expired". -/
theorem lifecycle_first_match_order (fieldsComplete : Bool) (e g asOf : Int)
    (hg : 0 ≤ g) :
    (evaluateLifecycle fieldsComplete none g asOf = .incomplete) ∧
    (fieldsComplete = false →
      evaluateLifecycle fieldsComplete (some e) g asOf = .incomplete) ∧
    (fieldsComplete = true →
      (evaluateLifecycle fieldsComplete (some e) g asOf ≠ .incomplete) ∧
      (evaluateLifecycle fieldsComplete (some e) g asOf = .penaltyActive ↔
        asOf > e + g) ∧
      (evaluateLifecycle fieldsComplete (some e) g asOf = .inGrace ↔
        (e < asOf ∧ asOf ≤ e + g)) ∧
      (evaluateLifecycle fieldsComplete (some e) g asOf = .expiringSoon ↔
        (asOf ≤ e ∧ e - asOf ≤ 30)) ∧
      (evaluateLifecycle fieldsComplete (some e) g asOf = .valid ↔
        (asOf ≤ e ∧ 30 < e - asOf))) := by
  refine ⟨rfl, ?_, ?_⟩
  · intro h
    simp [evaluateLifecycle, h]
  · intro h
    subst h
    simp only [evaluateLifecycle]
    rw [if_neg (by simp)]
    split_ifs with h1 h2 h3 <;>
      refine ⟨by simp, ?_, ?_, ?_, ?_⟩ <;> simp <;> omega

/-- C1 witness: a complete document expiring on day 20503 with 30 grace
days is InGrace 10 days after expiry, PenaltyActive 50 days after expiry,
and Incomplete when a required field is unset. -/
theorem lifecycle_first_match_order_witness :
    (evaluateLifecycle true (some 20503) 30 20513 = .inGrace) ∧
    (evaluateLifecycle true (some 20503) 30 20553 = .penaltyActive) ∧
    (evaluateLifecycle false (some 20503) 30 20400 = .incomplete) := by
  have h1 := lifecycle_first_match_order true 20503 30 20513 (by decide)
  have h2 := lifecycle_first_match_order true 20503 30 20553 (by decide)
  have h3 := lifecycle_first_match_order false 20503 30 20400 (by decide)
  exact ⟨((h1.2.2 rfl).2.2.1).mpr ⟨by decide, by decide⟩,
    ((h2.2.2 rfl).2.1).mpr (by decide), h3.2.1 rfl⟩

/-- C3: the spec-modelled daily fine formula — `fineRate * daysOverdue`
with the day count floored at zero, clamped to `[0, fineCap]` when
`fineCap > 0` and unclamped when `fineCap = 0` — together with the seeded
Emirates-ID rule of migration 007 (grace 30, daily rate 20, cap 1000).
At 60 days overdue beyond grace that rule yields 1000, not 1200
(see the witness). -/
theorem daily_fine_formula (rule : ComplianceRuleRow) (expiry asOf : Int)
    (hdaily : rule.fineType = "daily") :
    (0 < rule.fineCap → accrueFine .penaltyActive rule expiry asOf
      = min (max 0 (rule.finePerDay *
          ((asOf - (expiry + rule.gracePeriodDays)).toNat : ℚ))) rule.fineCap) ∧
    (rule.fineCap = 0 → accrueFine .penaltyActive rule expiry asOf
      = max 0 (rule.finePerDay *
          ((asOf - (expiry + rule.gracePeriodDays)).toNat : ℚ))) ∧
    ComplianceRuleRow.mk none "emirates_id" 30 20 1000 "daily"
      ∈ seedComplianceRules := by
  refine ⟨?_, ?_, by simp [seedComplianceRules]⟩
  · intro hc
    simp only [accrueFine, hdaily, if_true]
    rw [if_pos (show rule.fineCap > 0 from hc)]
  · intro hc
    simp only [accrueFine, hdaily, hc, if_true]
    rw [if_neg (by norm_num)]

/-- C3 witness: the Emirates-ID seed rule (daily rate 20, cap 1000, grace
30), 60 days overdue beyond grace (expiry at day 0, evaluated at day 90):
the accrued fine is the cap 1000, not 20 × 60 = 1200. -/
theorem daily_fine_formula_witness :
    accrueFine .penaltyActive
      (ComplianceRuleRow.mk none "emirates_id" 30 20 1000 "daily") 0 90
      = 1000 ∧ (20 : ℚ) * 60 = 1200 := by
  have h := (daily_fine_formula
    (ComplianceRuleRow.mk none "emirates_id" 30 20 1000 "daily") 0 90 rfl).1
    (by norm_num)
  refine ⟨?_, by norm_num⟩
  rw [h]
  dsimp only
  rw [show ((90:ℤ) - (0 + 30)).toNat = (60:ℕ) from by decide]
  rw [show (20:ℚ) * ((60:ℕ) : ℚ) = 1200 from by norm_num]
  rw [max_eq_right (by norm_num : (0:ℚ) ≤ 1200)]
  exact min_eq_right (by norm_num : (1000:ℚ) ≤ 1200)

/-- C4: a document in the InGrace state accrues no fine, while
`graceDaysRemaining = graceDays - (asOfDate - expiryDate)` is still
computed; the witness instantiates the spec scenario (expiry 2026-02-19 =
day 20503, grace 30, evaluated 10 days after expiry: InGrace, 20 grace days
remaining, fine 0). -/
theorem ingrace_zero_fine (rule : ComplianceRuleRow) (expiry asOf : Int)
    (h1 : expiry < asOf) (h2 : asOf ≤ expiry + rule.gracePeriodDays) :
    evaluateLifecycle true (some expiry) rule.gracePeriodDays asOf = .inGrace ∧
    accrueFine .inGrace rule expiry asOf = 0 ∧
    graceDaysRemaining rule.gracePeriodDays expiry asOf
      = rule.gracePeriodDays - (asOf - expiry) := by
  refine ⟨?_, by simp [accrueFine], ?_⟩
  · simp only [evaluateLifecycle]
    rw [if_neg (by simp), if_neg (by omega), if_pos (by omega)]
  · simp only [graceDaysRemaining]
    omega

/-- C4 witness: document expiring on day 20503 (2026-02-19) under a rule
with 30 grace days, evaluated on day 20513 (10 days after expiry). -/
theorem ingrace_zero_fine_witness :
    evaluateLifecycle true (some 20503) 30 20513 = .inGrace ∧
    accrueFine .inGrace (ComplianceRuleRow.mk none "visa" 30 50 0 "daily")
      20503 20513 = 0 ∧
    graceDaysRemaining 30 20503 20513 = 20 := by
  have h := ingrace_zero_fine (ComplianceRuleRow.mk none "visa" 30 50 0 "daily")
    20503 20513 (by decide) (by decide)
  exact ⟨h.1, h.2.1, by rw [h.2.2]; decide⟩

/-- C6 counterexample: the claim says evaluation is a pure function of the
document snapshot and a caller-supplied asOfDate with no implicit
wall-clock read.  In the code there is no asOfDate parameter at all:
`getExpiryStatus(expiryDate)` reads `new Date()` and the employee-list SQL
CASE reads `CURRENT_DATE` (here both made explicit as the second argument).
For the fixed document snapshot with expiry day 20503 the results differ as
the clock advances, so the evaluation is not replayable for a historical
date without moving the wall clock. -/
theorem wallclock_dependence_counterexample :
    getExpiryStatus 20503 20400 = .valid ∧
    getExpiryStatus 20503 20500 = .urgent ∧
    getExpiryStatus 20503 20510 = .expired ∧
    docStatusOfExpiry (some 20503) 20400 = .valid ∧
    docStatusOfExpiry (some 20503) 20510 = .expired := by
  refine ⟨?_, ?_, ?_, ?_, ?_⟩ <;> decide

/-- C6 amended: evaluation is a deterministic pure function of the document
snapshot and the wall-clock date at evaluation time (made an explicit
argument here); it depends on the two dates only through their day
difference, so it is shift-invariant — but the date is read implicitly
(`new Date()`, `CURRENT_DATE`), not supplied by the caller. -/
theorem status_shift_invariant (expiry now k : Int) :
    getExpiryStatus (expiry + k) (now + k) = getExpiryStatus expiry now ∧
    docStatusOfExpiry (some (expiry + k)) (now + k)
      = docStatusOfExpiry (some expiry) now := by
  constructor
  · have h0 : expiry + k - (now + k) = expiry - now := by ring
    simp only [getExpiryStatus, getDaysUntil, h0]
  · have h1 : (expiry + k < now + k) ↔ (expiry < now) := by omega
    have h2 : (expiry + k ≤ now + k + 30) ↔ (expiry ≤ now + 30) := by omega
    simp only [docStatusOfExpiry, h1, h2]

/-- C9: TogglePrimary on a document whose expiry date is null fails with
HTTP 400 "Cannot set as primary: document has no expiry date", and no `.ok`
state is produced — the transaction never commits, so every document record
is left unchanged. -/
theorem togglePrimary_requires_expiry (docs : List Document) (id : Nat)
    (d : Document) (hfind : docs.find? (fun x => x.id = id) = some d)
    (hexp : d.expiryDate = none) :
    togglePrimary docs id = .error .noExpiryDate ∧
    toggleHttpResponse .noExpiryDate
      = (400, "Cannot set as primary: document has no expiry date") ∧
    (∀ docs', togglePrimary docs id ≠ .ok docs') := by
  have h : togglePrimary docs id = .error .noExpiryDate := by
    unfold togglePrimary
    rw [hfind]
    simp [hexp]
  exact ⟨h, rfl, fun docs' hc => by rw [h] at hc; exact Except.noConfusion hc⟩

/-- C9 witness: a dateless contract document cannot be made primary. -/
theorem togglePrimary_requires_expiry_witness :
    togglePrimary [Document.mk 1 7 "contract" none false "u" "n" 1 "pdf"] 1
      = .error .noExpiryDate ∧
    toggleHttpResponse .noExpiryDate
      = (400, "Cannot set as primary: document has no expiry date") ∧
    (∀ docs', togglePrimary [Document.mk 1 7 "contract" none false "u" "n" 1 "pdf"] 1
      ≠ .ok docs') :=
  togglePrimary_requires_expiry _ 1
    (Document.mk 1 7 "contract" none false "u" "n" 1 "pdf") rfl rfl

/-- C10: the three counters of `DashboardHandler.GetMetrics` partition the
primary documents that carry an expiry date: each such document falls in
exactly one bucket (expired / expiringSoon / active), a document expiring
within the next 30 days is excluded from the active count, and the three
counts sum to the number of primary documents with an expiry date. -/
theorem dashboard_partition (docs : List Document) (today : Int) :
    (∀ d ∈ docs, d.isPrimary = true → ∀ e, d.expiryDate = some e →
      ((countedExpired today d = true ∧ countedExpiringSoon today d = false ∧
          countedActive today d = false) ∨
       (countedExpired today d = false ∧ countedExpiringSoon today d = true ∧
          countedActive today d = false) ∨
       (countedExpired today d = false ∧ countedExpiringSoon today d = false ∧
          countedActive today d = true))) ∧
    (∀ d ∈ docs, ∀ e, d.expiryDate = some e → today ≤ e → e ≤ today + 30 →
      countedActive today d = false) ∧
    (docs.countP (countedExpired today) + docs.countP (countedExpiringSoon today)
        + docs.countP (countedActive today)
      = docs.countP (fun d => d.isPrimary && d.expiryDate.isSome)) := by
  refine ⟨?_, ?_, ?_⟩
  · intro d _ hp e he
    simp only [countedExpired, countedExpiringSoon, countedActive, hp, he,
      Bool.true_and, decide_eq_true_eq, decide_eq_false_iff_not,
      Bool.and_eq_true, Bool.and_eq_false_iff]
    omega
  · intro d _ e he h1 h2
    simp only [countedActive, he]
    have : ¬ (e > today + 30) := by omega
    simp [this]
  · induction docs with
    | nil => rfl
    | cons d rest ih =>
      simp only [List.countP_cons]
      have hd : (if countedExpired today d = true then 1 else 0)
          + (if countedExpiringSoon today d = true then 1 else 0)
          + (if countedActive today d = true then 1 else 0)
          = (if (d.isPrimary && d.expiryDate.isSome) = true then 1 else 0) := by
        rcases hde : d.expiryDate with _ | e <;> cases hdp : d.isPrimary <;>
          simp only [countedExpired, countedExpiringSoon, countedActive, hde, hdp,
            Bool.false_and, Bool.true_and, Option.isSome_none, Option.isSome_some,
            Bool.and_false, Bool.and_true, decide_eq_true_eq, Bool.and_eq_true] <;>
          split_ifs <;> simp_all <;> omega
      omega

/-- C7: a successful renewal of a date-bearing document inserts a new
tracked record (same employee and type, the new expiry date, primary flag
set) and does not mutate the original: the original record is still present
with its type, expiry date and file fields unchanged, only its
primary-tracking flag possibly cleared. -/
theorem renew_preserves_history (docs docs' : List Document) (oldId newId : Nat)
    (req : RenewRequest) (d : Document) (hmem : d ∈ docs) (hid : d.id = oldId)
    (hnodup : idsNodup docs) (hdate : d.expiryDate.isSome = true)
    (hok : renew docs oldId req newId = .ok docs') :
    (∃ d' ∈ docs', d'.id = d.id ∧ d'.employeeId = d.employeeId ∧
      d'.documentType = d.documentType ∧ d'.expiryDate = d.expiryDate ∧
      d'.fileUrl = d.fileUrl ∧ d'.fileName = d.fileName ∧
      d'.fileSize = d.fileSize ∧ d'.fileType = d.fileType ∧
      (d'.isPrimary = d.isPrimary ∨ d'.isPrimary = false)) ∧
    (∃ n ∈ docs', n.id = newId ∧ n.employeeId = d.employeeId ∧
      n.documentType = d.documentType ∧ n.expiryDate = req.expiryDate ∧
      n.isPrimary = true) := by
  unfold renew at hok
  rcases hre : req.expiryDate with _ | newExpiry
  · rw [hre] at hok
    exact absurd hok (by simp)
  · rw [hre] at hok
    rcases hfind : docs.find? (fun x => x.id = oldId) with _ | old
    · rw [hfind] at hok
      exact absurd hok (by simp)
    · rw [hfind] at hok
      simp only [Except.ok.injEq] at hok
      have hold_mem := List.mem_of_find?_eq_some hfind
      have hold_id : old.id = oldId := by simpa using List.find?_some hfind
      have hsame : old = d :=
        List.inj_on_of_nodup_map hnodup hold_mem hmem (by rw [hold_id, hid])
      subst hsame
      subst hok
      constructor
      · refine ⟨(if old.employeeId = old.employeeId ∧ old.isPrimary then
          { old with isPrimary := false } else old), ?_, ?_⟩
        · exact List.mem_append_left _
            (List.mem_map_of_mem
              (fun x => if x.employeeId = old.employeeId ∧ x.isPrimary then
                { x with isPrimary := false } else x) hold_mem)
        · by_cases hc : old.employeeId = old.employeeId ∧ old.isPrimary = true
          · rw [if_pos hc]
            exact ⟨rfl, rfl, rfl, rfl, rfl, rfl, rfl, rfl, Or.inr rfl⟩
          · rw [if_neg hc]
            exact ⟨rfl, rfl, rfl, rfl, rfl, rfl, rfl, rfl, Or.inl rfl⟩
      · refine ⟨_, List.mem_append_right _ (List.mem_singleton_self _), ?_⟩
        exact ⟨rfl, rfl, rfl, rfl, rfl⟩

/-- C7 witness: renewing the single visa document of employee 7 (expiring
day 100) with a new expiry at day 465 yields a state holding both the
original record (fields intact, primary flag cleared) and the new primary
record. -/
theorem renew_preserves_history_witness :
    (∃ d' ∈ [Document.mk 1 7 "visa" (some 100) false "a" "b" 1 "pdf",
             Document.mk 2 7 "visa" (some 465) true "a" "b" 1 "pdf"],
      d'.id = 1 ∧ d'.employeeId = 7 ∧ d'.documentType = "visa" ∧
      d'.expiryDate = some 100 ∧ d'.fileUrl = "a" ∧ d'.fileName = "b" ∧
      d'.fileSize = 1 ∧ d'.fileType = "pdf" ∧
      (d'.isPrimary = true ∨ d'.isPrimary = false)) ∧
    (∃ n ∈ [Document.mk 1 7 "visa" (some 100) false "a" "b" 1 "pdf",
            Document.mk 2 7 "visa" (some 465) true "a" "b" 1 "pdf"],
      n.id = 2 ∧ n.employeeId = 7 ∧ n.documentType = "visa" ∧
      n.expiryDate = some 465 ∧ n.isPrimary = true) := by
  have h := renew_preserves_history
    [Document.mk 1 7 "visa" (some 100) true "a" "b" 1 "pdf"]
    [Document.mk 1 7 "visa" (some 100) false "a" "b" 1 "pdf",
     Document.mk 2 7 "visa" (some 465) true "a" "b" 1 "pdf"]
    1 2 (RenewRequest.mk (some 465) "" "" 0 "")
    (Document.mk 1 7 "visa" (some 100) true "a" "b" 1 "pdf")
    (List.mem_singleton_self _) rfl (by simp [idsNodup]) rfl rfl
  exact ⟨h.1, h.2⟩

/-- C2 counterexample: the claim says the single status representing an
employee is the highest-priority lifecycle state over ALL documents, so an
employee with an Incomplete visa (no expiry recorded) and a Valid passport
must read Incomplete.  The code of employee.go derives the status from the
primary document alone: for the concrete employee below (primary passport
expiring day 20603, visa with no expiry, evaluated on day 20503) it reports
'valid', while the claim's aggregate over all documents (spec-modelled
evaluator and priority fold) is Incomplete. -/
theorem aggregate_counterexample :
    employeeDocStatus
      [Document.mk 1 7 "passport" (some 20603) true "a" "b" 1 "pdf",
       Document.mk 2 7 "visa" none false "c" "d" 1 "pdf"] 20503
      = DocStatus.valid ∧
    specAggregateStatus
      [evaluateLifecycle true (some 20603) 0 20503,
       evaluateLifecycle true none 0 20503]
      = LifecycleState.incomplete ∧
    LifecycleState.incomplete ≠ LifecycleState.valid := by
  refine ⟨?_, ?_, by decide⟩ <;> decide

/-- C2 amended: the status representing an employee in employee.go is
computed from the primary document alone — prepending any non-primary
document (an incomplete visa included) leaves it unchanged, and when the
primary document carries an expiry date the status is the CASE over that
date alone, never 'none'. -/
theorem status_from_primary_only (docs : List Document) (today : Int)
    (extra : Document) (hx : extra.isPrimary = false)
    (p : Document) (hp : findPrimary docs = some p) (e : Int)
    (he : p.expiryDate = some e) :
    employeeDocStatus (extra :: docs) today = employeeDocStatus docs today ∧
    employeeDocStatus docs today
      = (if e < today then DocStatus.expired
         else if e ≤ today + 30 then DocStatus.expiring else DocStatus.valid) ∧
    employeeDocStatus docs today ≠ DocStatus.docNone := by
  have hfp : findPrimary (extra :: docs) = findPrimary docs := by
    unfold findPrimary
    exact List.find?_cons_of_neg _ (by simp [hx])
  refine ⟨by simp [employeeDocStatus, hfp], ?_, ?_⟩
  · simp [employeeDocStatus, hp, he, docStatusOfExpiry]
  · simp only [employeeDocStatus, hp, Option.some_bind, he, docStatusOfExpiry]
    split_ifs <;> simp

/-- C2 amended witness: the counterexample employee — valid primary
passport, incomplete non-primary visa — keeps status 'valid' whether or not
the visa row is present. -/
theorem status_from_primary_only_witness :
    employeeDocStatus
      [Document.mk 2 7 "visa" none false "c" "d" 1 "pdf",
       Document.mk 1 7 "passport" (some 20603) true "a" "b" 1 "pdf"] 20503
      = employeeDocStatus
        [Document.mk 1 7 "passport" (some 20603) true "a" "b" 1 "pdf"] 20503 ∧
    employeeDocStatus
      [Document.mk 1 7 "passport" (some 20603) true "a" "b" 1 "pdf"] 20503
      = DocStatus.valid ∧
    employeeDocStatus
      [Document.mk 1 7 "passport" (some 20603) true "a" "b" 1 "pdf"] 20503
      ≠ DocStatus.docNone := by
  have h := status_from_primary_only
    [Document.mk 1 7 "passport" (some 20603) true "a" "b" 1 "pdf"] 20503
    (Document.mk 2 7 "visa" none false "c" "d" 1 "pdf") rfl
    (Document.mk 1 7 "passport" (some 20603) true "a" "b" 1 "pdf") rfl 20603 rfl
  refine ⟨h.1, ?_, h.2.2⟩
  rw [h.2.1]
  decide

/-- Two rule rows conflict under the migration-007 constraints exactly when
they share the (company, type) key. -/
theorem rulesConflict_iff (r s : ComplianceRuleRow) :
    rulesConflict r s = true ↔ ruleKey r = ruleKey s := by
  rcases r with ⟨rc, rt, rg, rf, rcap, rft⟩
  rcases s with ⟨sc, st, sg, sf, scap, sft⟩
  rcases rc with _ | a <;> rcases sc with _ | b <;>
    simp [rulesConflict, ruleKey, Prod.ext_iff]

/-- In every reachable state of the compliance_rules table, no two rows
share the (company, type) key. -/
theorem rulesReachable_keys_nodup (rules : List ComplianceRuleRow)
    (h : RulesReachable rules) : (rules.map ruleKey).Nodup := by
  induction h with
  | empty => simp
  | insert rs rs' r hr hins ih =>
    unfold insertRule at hins
    by_cases hc : rs.any (fun s => rulesConflict r s) = true
    · rw [if_pos hc] at hins
      exact absurd hins (by simp)
    · rw [if_neg hc] at hins
      obtain rfl := Option.some.inj hins
      simp only [List.map_cons, List.nodup_cons]
      refine ⟨?_, ih⟩
      intro hmem
      obtain ⟨s, hsmem, hkey⟩ := List.mem_map.mp hmem
      exact hc (List.any_eq_true.mpr
        ⟨s, hsmem, (rulesConflict_iff r s).mpr hkey.symm⟩)
  | delete rs p hr ih =>
    exact List.Nodup.sublist (List.Sublist.map ruleKey (List.filter_sublist rs)) ih

/-- C5: in every reachable state of the compliance_rules store, at most one
global rule (company reference null) exists per document type — enforced by
the partial unique index — and at most one organization-specific rule
exists per (organization, type) pair — enforced by
UNIQUE(company_id, doc_type). -/
theorem rules_uniqueness (rules : List ComplianceRuleRow)
    (h : RulesReachable rules) :
    (∀ t, rules.countP
        (fun r => decide (r.companyId = none) && decide (r.docType = t)) ≤ 1) ∧
    (∀ c t, rules.countP
        (fun r => decide (r.companyId = some c) && decide (r.docType = t)) ≤ 1) := by
  have hnd := rulesReachable_keys_nodup rules h
  constructor
  · intro t
    refine countP_le_one_key ruleKey (none, t) rules hnd _ ?_
    intro a _ ha
    simp only [Bool.and_eq_true, decide_eq_true_eq] at ha
    simp [ruleKey, ha.1, ha.2]
  · intro c t
    refine countP_le_one_key ruleKey (some c, t) rules hnd _ ?_
    intro a _ ha
    simp only [Bool.and_eq_true, decide_eq_true_eq] at ha
    simp [ruleKey, ha.1, ha.2]

/-- C5 witness: the state reached by inserting the seeded global passport
rule and then an organization-specific passport rule for company 5
satisfies both uniqueness bounds. -/
theorem rules_uniqueness_witness :
    (∀ t, ([ComplianceRuleRow.mk (some 5) "passport" 0 0 0 "daily",
            ComplianceRuleRow.mk none "passport" 0 0 0 "daily"].countP
        (fun r => decide (r.companyId = none) && decide (r.docType = t)) ≤ 1)) ∧
    (∀ c t, ([ComplianceRuleRow.mk (some 5) "passport" 0 0 0 "daily",
              ComplianceRuleRow.mk none "passport" 0 0 0 "daily"].countP
        (fun r => decide (r.companyId = some c) && decide (r.docType = t)) ≤ 1)) :=
  rules_uniqueness _
    (RulesReachable.insert
      [ComplianceRuleRow.mk none "passport" 0 0 0 "daily"]
      [ComplianceRuleRow.mk (some 5) "passport" 0 0 0 "daily",
       ComplianceRuleRow.mk none "passport" 0 0 0 "daily"]
      (ComplianceRuleRow.mk (some 5) "passport" 0 0 0 "daily")
      (RulesReachable.insert []
        [ComplianceRuleRow.mk none "passport" 0 0 0 "daily"]
        (ComplianceRuleRow.mk none "passport" 0 0 0 "daily")
        RulesReachable.empty rfl)
      (by decide))

/-- Clearing primary flags changes no document id. -/
theorem clearPrimaryFor_ids (e : Nat) (docs : List Document) :
    (clearPrimaryFor e docs).map Document.id = docs.map Document.id := by
  unfold clearPrimaryFor
  rw [List.map_map]
  refine List.map_congr_left ?_
  intro a _
  show (if a.employeeId = e ∧ a.isPrimary = true then
    ({ a with isPrimary := false } : Document) else a).id = a.id
  split <;> rfl

/-- Setting a primary flag changes no document id. -/
theorem setPrimaryById_ids (id : Nat) (docs : List Document) :
    (setPrimaryById id docs).map Document.id = docs.map Document.id := by
  unfold setPrimaryById
  rw [List.map_map]
  refine List.map_congr_left ?_
  intro a _
  show (if a.id = id then ({ a with isPrimary := true } : Document) else a).id = a.id
  split <;> rfl

/-- Unsetting a primary flag changes no document id. -/
theorem unsetPrimaryById_ids (id : Nat) (docs : List Document) :
    (unsetPrimaryById id docs).map Document.id = docs.map Document.id := by
  unfold unsetPrimaryById
  rw [List.map_map]
  refine List.map_congr_left ?_
  intro a _
  show (if a.id = id then ({ a with isPrimary := false } : Document) else a).id = a.id
  split <;> rfl

/-- Updating fields changes no document id. -/
theorem updateDocument_ids (id : Nat) (req : UpdateRequest) (docs : List Document) :
    (updateDocument docs id req).map Document.id = docs.map Document.id := by
  unfold updateDocument
  rw [List.map_map]
  refine List.map_congr_left ?_
  intro a _
  show (if a.id = id then applyUpdate req a else a).id = a.id
  split <;> rfl

/-- After clearing an employee's primary flags, that employee has no
primary document. -/
theorem primaryCount_clear_self (e : Nat) (docs : List Document) :
    primaryCount e (clearPrimaryFor e docs) = 0 := by
  unfold primaryCount clearPrimaryFor
  rw [List.countP_eq_zero]
  intro x hx
  obtain ⟨d, hd, rfl⟩ := List.mem_map.mp hx
  by_cases hc : d.employeeId = e ∧ d.isPrimary = true
  · rw [if_pos hc]
    simp
  · rw [if_neg hc]
    simp only [Bool.and_eq_true, decide_eq_true_eq]
    intro hcontra
    exact hc hcontra

/-- Clearing one employee's primary flags leaves other employees' primary
counts unchanged. -/
theorem primaryCount_clear_other (e e' : Nat) (he : e' ≠ e) (docs : List Document) :
    primaryCount e' (clearPrimaryFor e docs) = primaryCount e' docs := by
  unfold primaryCount clearPrimaryFor
  refine countP_map_eq _ _ _ docs ?_
  intro x _
  by_cases hc : x.employeeId = e ∧ x.isPrimary = true
  · rw [if_pos hc]
    have hne : ¬ (x.employeeId = e') := by
      rw [hc.1]
      exact fun hcontra => he hcontra.symm
    simp [hne]
  · rw [if_neg hc]

/-- Unsetting a primary flag never increases a primary count. -/
theorem primaryCount_unset_le (id e : Nat) (docs : List Document) :
    primaryCount e (unsetPrimaryById id docs) ≤ primaryCount e docs := by
  unfold primaryCount unsetPrimaryById
  refine countP_map_le _ _ _ docs ?_
  intro x _ hp
  by_cases hc : x.id = id
  · rw [if_pos hc] at hp
    simp at hp
  · rw [if_neg hc] at hp
    exact hp

/-- Every reachable state of the documents table has unique primary keys
and at most one primary document per employee. -/
theorem reachable_invariant (docs : List Document) (h : Reachable docs) :
    idsNodup docs ∧ atMostOnePrimary docs := by
  induction h with
  | empty => exact ⟨by simp [idsNodup], fun e => by simp [primaryCount]⟩
  | create docs d hr hf ih =>
    have hfresh : ∀ x ∈ docs, x.id ≠ d.id := by
      intro x hx
      simpa using (List.all_eq_true.mp hf) x hx
    constructor
    · unfold idsNodup createDocument
      rw [List.map_append, List.nodup_append]
      refine ⟨ih.1, by simp, ?_⟩
      intro a ha hb
      simp only [List.map_cons, List.map_nil, List.mem_cons,
        List.not_mem_nil, or_false] at hb
      obtain ⟨x, hx, rfl⟩ := List.mem_map.mp ha
      exact hfresh x hx (by simpa using hb)
    · intro e
      unfold primaryCount createDocument
      rw [List.countP_append]
      have hz : List.countP (fun x => decide (x.employeeId = e) && x.isPrimary)
          [{ d with isPrimary := false }] = 0 := by simp
      rw [hz]
      simpa [primaryCount] using ih.2 e
  | update docs id req hr ih =>
    constructor
    · unfold idsNodup
      rw [updateDocument_ids]
      exact ih.1
    · intro e
      unfold primaryCount updateDocument
      rw [countP_map_eq _ _ (fun x => decide (x.employeeId = e) && x.isPrimary)
        docs (fun x _ => by dsimp only; split <;> rfl)]
      exact ih.2 e
  | delete docs id hr ih =>
    constructor
    · unfold idsNodup deleteDocument
      exact List.Nodup.sublist
        (List.Sublist.map Document.id (List.filter_sublist docs)) ih.1
    · intro e
      unfold primaryCount deleteDocument
      exact le_trans
        (List.Sublist.countP_le _ (List.filter_sublist docs)) (ih.2 e)
  | toggle docs docs' id hr hok ih =>
    unfold togglePrimary at hok
    rcases hfind : docs.find? (fun x => x.id = id) with _ | d
    · rw [hfind] at hok
      exact absurd hok (by simp)
    · rw [hfind] at hok
      have hdmem := List.mem_of_find?_eq_some hfind
      have hdid : d.id = id := by simpa using List.find?_some hfind
      by_cases hexp : d.expiryDate.isNone = true
      · simp [hexp] at hok
      · by_cases hprim : d.isPrimary = true
        · simp [hexp, hprim] at hok
          subst hok
          constructor
          · unfold idsNodup
            rw [unsetPrimaryById_ids]
            exact ih.1
          · intro e
            exact le_trans (primaryCount_unset_le id e docs) (ih.2 e)
        · simp [hexp, hprim] at hok
          subst hok
          have hmids : (setPrimaryById id (clearPrimaryFor d.employeeId docs)).map
              Document.id = docs.map Document.id := by
            rw [setPrimaryById_ids, clearPrimaryFor_ids]
          have hclear_emp : ∀ x ∈ clearPrimaryFor d.employeeId docs,
              x.id = id → x.employeeId = d.employeeId := by
            intro x hx hxid
            unfold clearPrimaryFor at hx
            obtain ⟨y, hy, rfl⟩ := List.mem_map.mp hx
            have hyid : y.id = id := by
              by_cases hc : y.employeeId = d.employeeId ∧ y.isPrimary = true
              · rw [if_pos hc] at hxid
                exact hxid
              · rw [if_neg hc] at hxid
                exact hxid
            have hyd : y = d := List.inj_on_of_nodup_map ih.1 hy hdmem
              (by rw [hyid, hdid])
            rw [hyd]
            by_cases hc : d.employeeId = d.employeeId ∧ d.isPrimary = true
            · rw [if_pos hc]
            · rw [if_neg hc]
          constructor
          · unfold idsNodup
            rw [hmids]
            exact ih.1
          · intro e
            by_cases he : e = d.employeeId
            · subst he
              unfold primaryCount
              refine countP_le_one_key Document.id id _ ?_ _ ?_
              · rw [hmids]
                exact ih.1
              · intro a ha hpa
                unfold setPrimaryById at ha
                obtain ⟨x, hx, rfl⟩ := List.mem_map.mp ha
                by_cases hxid : x.id = id
                · rw [if_pos hxid]
                  exact hxid
                · rw [if_neg hxid]
                  rw [if_neg hxid] at hpa
                  have hzero := primaryCount_clear_self d.employeeId docs
                  unfold primaryCount at hzero
                  exact absurd hpa (List.countP_eq_zero.mp hzero x hx)
            · unfold primaryCount setPrimaryById
              refine le_trans (countP_map_le _ _
                (fun (x : Document) => decide (x.employeeId = e) && x.isPrimary) _ ?_) ?_
              · intro x hx hpx
                by_cases hxid : x.id = id
                · rw [if_pos hxid] at hpx
                  have hxe : x.employeeId = d.employeeId :=
                    hclear_emp x hx hxid
                  simp only [Bool.and_eq_true, decide_eq_true_eq] at hpx
                  exact absurd (hxe ▸ hpx.1) (fun hcontra => he hcontra.symm)
                · rw [if_neg hxid] at hpx
                  exact hpx
              · have hother := primaryCount_clear_other d.employeeId e he docs
                unfold primaryCount at hother
                rw [hother]
                exact ih.2 e
  | renewal docs docs' oldId newId req hr hf hok ih =>
    unfold renew at hok
    rcases hre : req.expiryDate with _ | newExpiry
    · rw [hre] at hok
      exact absurd hok (by simp)
    · rw [hre] at hok
      rcases hfind : docs.find? (fun x => x.id = oldId) with _ | old
      · rw [hfind] at hok
        exact absurd hok (by simp)
      · rw [hfind] at hok
        simp only [Except.ok.injEq] at hok
        subst hok
        have hfresh : ∀ x ∈ docs, x.id ≠ newId := by
          intro x hx
          simpa using (List.all_eq_true.mp hf) x hx
        constructor
        · unfold idsNodup
          rw [List.map_append, List.nodup_append, clearPrimaryFor_ids]
          refine ⟨ih.1, by simp, ?_⟩
          intro a ha hb
          simp only [List.map_cons, List.map_nil, List.mem_cons,
            List.not_mem_nil, or_false] at hb
          obtain ⟨x, hx, rfl⟩ := List.mem_map.mp ha
          exact hfresh x hx (by simpa using hb)
        · intro e
          unfold primaryCount
          rw [List.countP_append]
          by_cases he : e = old.employeeId
          · subst he
            have hz := primaryCount_clear_self old.employeeId docs
            unfold primaryCount at hz
            rw [hz]
            simp
          · have hother := primaryCount_clear_other old.employeeId e he docs
            unfold primaryCount at hother
            rw [hother]
            have hnew : List.countP (fun (x : Document) => decide (x.employeeId = e) && x.isPrimary)
                [{ id := newId, employeeId := old.employeeId,
                   documentType := old.documentType, expiryDate := some newExpiry,
                   isPrimary := true,
                   fileUrl := if req.fileUrl ≠ "" then req.fileUrl else old.fileUrl,
                   fileName := if req.fileName ≠ "" then req.fileName else old.fileName,
                   fileSize := if req.fileSize > 0 then req.fileSize else old.fileSize,
                   fileType := if req.fileType ≠ "" then req.fileType else old.fileType }]
                = 0 := by
              simp only [List.countP_cons, List.countP_nil]
              have : ¬ (old.employeeId = e) := fun hcontra => he hcontra.symm
              simp [this]
            rw [hnew]
            simpa using ih.2 e

/-- C8: in every reachable state of the documents table at most one
document per employee carries the primary flag: Create inserts with the
flag unset, Update never touches it, TogglePrimary unsets the existing
primary before setting the new one in one transaction, Renew unsets the old
primary before inserting the renewed document as primary, and the partial
unique index of migration 004 is the per-state bound proved here. -/
theorem primary_flag_unique (docs : List Document) (h : Reachable docs) :
    atMostOnePrimary docs :=
  (reachable_invariant docs h).2

/-- C8 witness: the state reached by creating a document for employee 7 and
toggling it primary has at most one primary document per employee. -/
theorem primary_flag_unique_witness :
    atMostOnePrimary [Document.mk 1 7 "visa" (some 100) true "a" "b" 1 "pdf"] := by
  have h1 : Reachable (createDocument []
      (Document.mk 1 7 "visa" (some 100) true "a" "b" 1 "pdf")) :=
    Reachable.create [] _ Reachable.empty rfl
  have h2 : Reachable [Document.mk 1 7 "visa" (some 100) true "a" "b" 1 "pdf"] :=
    Reachable.toggle _ _ 1 h1 rfl
  exact primary_flag_unique _ h2

end MMS
